import Mathlib

/-!
Shallow embedding of the currency-converter service
(`converter_service/server.py`, `converter_service/exchange_rate/cbr.py`,
`converter_service/exchange_rate/interface.py`,
`converter_service/exchange_rate/exceptions.py`) together with the parts of
the Python standard library the code leans on (`decimal.Decimal` under the
default context: precision 28, ROUND_HALF_EVEN; `str.split`; `json.dumps`
with its default `ensure_ascii=True`).  Machine-independent data is modelled
with `Nat`/`Int`/`List Char`; fallible operations return `Option`/`Except`.
-/

namespace CurConv

/-! ## Digit counting (models `len(str(coefficient))` on a natural number) -/

/-- Fuel-driven digit count; fuel `n` always suffices since the digit count
of `n` is at most `n` for `n ≥ 1`, and `n = 0` is handled by the base case. -/
def nDigitsAux : Nat → Nat → Nat
  | 0, _ => 1
  | f + 1, n => if n < 10 then 1 else nDigitsAux f (n / 10) + 1

/-- Number of decimal digits of `n`, with `nDigits 0 = 1` (Python's
coefficient string for zero is `'0'`, of length 1). -/
def nDigits (n : Nat) : Nat := nDigitsAux n n

/-! ## Python `decimal` core

The program runs every `Decimal` operation under the default context:
`prec = 28`, rounding `ROUND_HALF_EVEN`, and exponent bounds so large that
none of the inputs exercised here can reach them (the `Emin`/`Emax`/`Etiny`
clamping of `_fix` is therefore not modelled). -/

/-- Context precision of Python's default decimal context. -/
def prec : Nat := 28

/-- A finite Python `Decimal`: sign, coefficient (magnitude) and exponent,
denoting `(-1)^sign * mag * 10^exp`.  Mirrors the `(sign, int, exp)` triple
of `decimal.Decimal`; a negative zero keeps `sign = true`, `mag = 0`. -/
structure Decimal where
  sign : Bool
  mag : Nat
  exp : Int
deriving DecidableEq, Repr

/-- Round-half-even integer division `n / m` (the coefficient rounding used
by `ROUND_HALF_EVEN`): round to nearest, ties to the even quotient. -/
def rheNat (n m : Nat) : Nat :=
  if m < 2 * (n % m) then n / m + 1
  else if 2 * (n % m) < m then n / m
  else if (n / m) % 2 = 1 then n / m + 1 else n / m

/-- Model of `Decimal._fix` for in-range finite numbers: if the coefficient
has more than `prec` digits, round it half-even to `prec` digits, bumping the
exponent; a round-up overflowing to `prec + 1` digits drops its trailing
zero.  Exponent-bound clamping is out of range for this program's data. -/
def fixD (a : Decimal) : Decimal :=
  let d := nDigits a.mag
  if d ≤ prec then a
  else
    let k := d - prec
    let q := rheNat a.mag (10 ^ k)
    if prec < nDigits q then ⟨a.sign, q / 10, a.exp + k + 1⟩
    else ⟨a.sign, q, a.exp + k⟩

/-- Exact product before the context rounding (`Decimal.__mul__` computes
the exact coefficient product and sum of exponents, then `_fix`s). -/
def mulRaw (a b : Decimal) : Decimal :=
  ⟨xor a.sign b.sign, a.mag * b.mag, a.exp + b.exp⟩

/-- `Decimal.__mul__` under the default context. -/
def mulD (a b : Decimal) : Decimal := fixD (mulRaw a b)

/-- The exact-quotient loop of `Decimal.__truediv__`: while the exponent is
below the ideal exponent and the coefficient ends in 0, shift a zero off.
Fuel `(ideal - exp).toNat` bounds the iterations exactly. -/
def stripZeros : Nat → Nat → Int → Nat × Int
  | 0, q, e => (q, e)
  | f + 1, q, e => if q % 10 = 0 then stripZeros f (q / 10) (e + 1) else (q, e)

/-- `Decimal.__truediv__` before the final `_fix`: compute `prec + 1`
quotient digits; if inexact, nudge a quotient ending in 0 or 5 by one so the
final rounding sees a nonzero remainder; if exact, move toward the ideal
exponent `a.exp - b.exp`.  Requires `b.mag ≠ 0` to be meaningful. -/
def divPre (a b : Decimal) : Decimal :=
  let sgn := xor a.sign b.sign
  if a.mag = 0 then ⟨sgn, 0, a.exp - b.exp⟩
  else
    let shift : Int := (nDigits b.mag : Int) - (nDigits a.mag : Int) + (prec : Int) + 1
    let e := a.exp - b.exp - shift
    let qr : Nat × Nat :=
      if 0 ≤ shift then (a.mag * 10 ^ shift.toNat / b.mag, a.mag * 10 ^ shift.toNat % b.mag)
      else (a.mag / (b.mag * 10 ^ (-shift).toNat), a.mag % (b.mag * 10 ^ (-shift).toNat))
    if qr.2 ≠ 0 then
      ⟨sgn, if qr.1 % 5 = 0 then qr.1 + 1 else qr.1, e⟩
    else
      let ideal := a.exp - b.exp
      let qe := stripZeros (ideal - e).toNat qr.1 e
      ⟨sgn, qe.1, qe.2⟩

/-- Finite decimal division under the default context (divisor nonzero). -/
def divFin (a b : Decimal) : Decimal := fixD (divPre a b)

/-- `Decimal.__truediv__`: `none` models the `DivisionByZero` /
`InvalidOperation` exception raised on a zero divisor. -/
def divD (a b : Decimal) : Option Decimal :=
  if b.mag = 0 then none else some (divFin a b)

/-- `Decimal.quantize(Decimal('0.01'))`-style rescaling to target exponent
`t` with ROUND_HALF_EVEN; `none` models the `InvalidOperation` raised when
the result coefficient would exceed `prec` digits. -/
def quantizeD (a : Decimal) (t : Int) : Option Decimal :=
  if t ≤ a.exp then
    let m := a.mag * 10 ^ (a.exp - t).toNat
    if prec < nDigits m then none else some ⟨a.sign, m, t⟩
  else
    let q := rheNat a.mag (10 ^ (t - a.exp).toNat)
    if prec < nDigits q then none else some ⟨a.sign, q, t⟩

/-- The `Decimal(1)` built from the literal `1` in `1 / result`. -/
def oneDec : Decimal := ⟨false, 1, 0⟩

/-! ## Python `Decimal(string)` construction

`decimal.Decimal` accepts (after stripping surrounding whitespace and
removing every underscore, as `decimal.py` does with
`value.strip().replace("_", "")`) an optional sign, then either a digit
string with an optional point and optional exponent, or the special values
`Infinity`/`Inf`, `NaN` and `sNaN` with an optional digit payload, all
case-insensitively.  Anything else raises `InvalidOperation`, modelled as
`none`. -/

/-- A Python `Decimal` value as produced by the constructor: finite, an
infinity, or a (quiet or signaling) NaN with its diagnostic digits. -/
inductive PyDec where
  | fin (d : Decimal)
  | inf (sign : Bool)
  | nan (sign : Bool) (diag : List Char)
  | snan (sign : Bool) (diag : List Char)
deriving DecidableEq, Repr

/-- Python's `str.isspace()` character class (the set `str.split()` and
`str.strip()` act on): control whitespace 9-13, the separator controls
28-31, space (32), next-line (133), no-break space (160), ogham space
(5760), the typographic spaces 8192-8202, the line and paragraph
separators (8232, 8233), narrow no-break space (8239), medium
mathematical space (8287) and ideographic space (12288). -/
def pyIsSpace (c : Char) : Bool :=
  (9 ≤ c.toNat && c.toNat ≤ 13) || (28 ≤ c.toNat && c.toNat ≤ 32) ||
  c.toNat = 133 || c.toNat = 160 || c.toNat = 5760 ||
  (8192 ≤ c.toNat && c.toNat ≤ 8202) || c.toNat = 8232 || c.toNat = 8233 ||
  c.toNat = 8239 || c.toNat = 8287 || c.toNat = 12288

/-- Strip leading and trailing whitespace: `str.strip()`, acting on the
full `str.isspace()` class. -/
def stripWs (cs : List Char) : List Char :=
  ((cs.dropWhile pyIsSpace).reverse.dropWhile pyIsSpace).reverse

/-- Split at the first character satisfying `p`; `none` when absent. -/
def splitFirst (p : Char → Bool) : List Char → List Char × Option (List Char)
  | [] => ([], none)
  | c :: r =>
    if p c then ([], some r)
    else
      let ab := splitFirst p r
      (c :: ab.1, ab.2)

/-- Digit characters to the natural number they denote. -/
def digitsToNat (cs : List Char) : Nat :=
  cs.foldl (fun a c => a * 10 + (c.toNat - 48)) 0

/-- Numeric (non-special) branch of the `Decimal` constructor grammar:
`digits [. digits] [(e|E) [sign] digits]`, at least one digit in the
mantissa. -/
def parseNumeric (sign : Bool) (cs : List Char) : Option PyDec :=
  let me := splitFirst (fun c => c = 'e' || c = 'E') cs
  let ifp := splitFirst (fun c => c = '.') me.1
  let ip := ifp.1
  let fp := (ifp.2).getD []
  if ip.all Char.isDigit && fp.all Char.isDigit && !(ip ++ fp).isEmpty then
    let mag := digitsToNat (ip ++ fp)
    match me.2 with
    | none => some (.fin ⟨sign, mag, -(fp.length : Int)⟩)
    | some ec =>
      let se : Bool × List Char :=
        match ec with
        | '+' :: r => (false, r)
        | '-' :: r => (true, r)
        | r => (false, r)
      if !se.2.isEmpty && se.2.all Char.isDigit then
        let ev : Int := if se.1 then -(digitsToNat se.2 : Int) else (digitsToNat se.2 : Int)
        some (.fin ⟨sign, mag, ev - (fp.length : Int)⟩)
      else none
  else none

/-- Constructor body after the optional sign: special values first
(case-insensitive), then the numeric grammar. -/
def parseUnsigned (sign : Bool) (cs : List Char) : Option PyDec :=
  let low := cs.map Char.toLower
  if low = ('i' :: 'n' :: 'f' :: []) || low = ('i' :: 'n' :: 'f' :: 'i' :: 'n' :: 'i' :: 't' :: 'y' :: []) then
    some (.inf sign)
  else
    match low with
    | 'n' :: 'a' :: 'n' :: diag =>
      if diag.all Char.isDigit then some (.nan sign diag) else none
    | 's' :: 'n' :: 'a' :: 'n' :: diag =>
      if diag.all Char.isDigit then some (.snan sign diag) else none
    | _ => parseNumeric sign cs

/-- Optional leading sign of the constructor grammar. -/
def parseSigned (cs : List Char) : Option PyDec :=
  match cs with
  | '+' :: r => parseUnsigned false r
  | '-' :: r => parseUnsigned true r
  | r => parseUnsigned false r

/-- `decimal.Decimal(amount)`: `none` models the `InvalidOperation` raised
on a string that is not a valid decimal literal. -/
def pyDecParse (s : String) : Option PyDec :=
  parseSigned ((stripWs s.data).filter (fun c => c ≠ '_'))

/-! ## `str(Decimal)` (`Decimal.__str__`) -/

/-- Decimal digit character for `k ≤ 9` (stored high-to-low and indexed
from the top, so `k` beyond 9 falls back to `'9'`). -/
def digitChar (k : Nat) : Char :=
  (['9', '8', '7', '6', '5', '4', '3', '2', '1', '0']).getD (9 - k) '9'

/-- Fuel-driven digit printer (least significant digit first into `acc`). -/
def natCharsAux : Nat → Nat → List Char → List Char
  | 0, n, acc => digitChar (n % 10) :: acc
  | f + 1, n, acc =>
    if n < 10 then digitChar n :: acc
    else natCharsAux f (n / 10) (digitChar (n % 10) :: acc)

/-- Decimal digit string of a natural number (`str(n)`), `'0'` for zero. -/
def natChars (n : Nat) : List Char := natCharsAux n n []

/-- `Decimal.__str__` for finite values: plain notation when
`exp ≤ 0` and the adjusted position is above `-6`, scientific notation
(`E` with an explicit sign) otherwise. -/
def pyStr (d : Decimal) : String :=
  let ds := natChars d.mag
  let left : Int := d.exp + (ds.length : Int)
  let plain : Bool := decide (d.exp ≤ 0) && decide (-6 < left)
  let dot : Int := if plain then left else 1
  let expPart : List Char :=
    if plain then []
    else if 0 ≤ left - 1 then 'E' :: '+' :: natChars (left - 1).toNat
    else 'E' :: '-' :: natChars (1 - left).toNat
  let body : List Char :=
    if dot ≤ 0 then '0' :: '.' :: (List.replicate (-dot).toNat '0' ++ ds)
    else if (ds.length : Int) ≤ dot then ds ++ List.replicate (dot - (ds.length : Int)).toNat '0'
    else ds.take dot.toNat ++ '.' :: ds.drop dot.toNat
  ⟨(if d.sign then '-' :: body else body) ++ expPart⟩

/-- `str` on constructor-produced values, including the specials. -/
def pyStrP : PyDec → String
  | .fin d => pyStr d
  | .inf s => if s then ("-Infinity") else ("Infinity")
  | .nan s diag => (if s then ("-NaN") else ("NaN")) ++ ⟨diag⟩
  | .snan s diag => (if s then ("-sNaN") else ("sNaN")) ++ ⟨diag⟩

/-! ## Exchange-rate provider (`cbr.py`, `interface.py`, `exceptions.py`)

`Currencies = Mapping[str, Mapping[str, Decimal]]` becomes an association
list, with `in`/`[]`/`.get` modelled by `List.lookup`. -/

/-- The rate table type `Currencies` of `cbr.py`. -/
abbrev Currencies : Type := List (String × List (String × Decimal))

/-- Exceptions that can escape `get_exchange_rate` / `convert`.  The first
three are `ExchangeRateException` subclasses (they carry a message); the
rest are foreign exceptions (`decimal.DivisionByZero`, `OSError` from the
socket, `IndexError`, `decimal.InvalidOperation` during body extraction)
that the server only catches with its blanket `except Exception`. -/
inductive ConvErr where
  | currencyNotSupported (currency : String)
  | amountInvalid
  | upstreamStatus (code description : String)
  | divisionByZero
  | transport
  | indexError
  | malformedRate
deriving DecidableEq, Repr

/-- The `message` attribute of `ExchangeRateException` values; `none` for
exceptions outside that hierarchy. -/
def errMessage : ConvErr → Option String
  | .currencyNotSupported c => some (("Exchange rate for ") ++ c ++ (" is not supported"))
  | .amountInvalid => some ("Amount of money is not correct")
  | .upstreamStatus code desc =>
      some (("Request to the CBR server is failed. Error ") ++ code ++ (": ") ++ desc)
  | .divisionByZero => none
  | .transport => none
  | .indexError => none
  | .malformedRate => none

/-- Rate lookup of `CBR.get_exchange_rate` (lines 53-68) over a given
table: if `base` is an outer key, take the stored rate for `target`
(raising `CurrencyNotSupported(target)` when absent) and return its
reciprocal `1 / result` under the context; otherwise if `target` is an
outer key, return the stored rate for `base` directly; a `None` result
raises `CurrencyNotSupported(base)`. -/
def getExchangeRate (currencies : Currencies) (base target : String) : Except ConvErr Decimal :=
  match List.lookup base currencies with
  | some exchangeRate =>
    match List.lookup target exchangeRate with
    | none => .error (.currencyNotSupported target)
    | some r =>
      match divD oneDec r with
      | some q => .ok q
      | none => .error .divisionByZero
  | none =>
    match List.lookup target currencies with
    | some exchangeRate =>
      match List.lookup base exchangeRate with
      | some r => .ok r
      | none => .error (.currencyNotSupported base)
    | none => .error (.currencyNotSupported base)

/-- The arithmetic step of `IExchageRate.convert` (lines 25-30):
`(Decimal(amount) * rate).quantize(Decimal('0.01'))` inside a
`try ... except InvalidOperation` that raises
`ExchangeRateException('Amount of money is not correct')`.  A quiet NaN
amount flows through multiplication and `quantize` unchanged; an infinity
or signaling NaN raises `InvalidOperation` inside the `try`. -/
def amountStep (rate : Decimal) (amount : String) : Except ConvErr PyDec :=
  match pyDecParse amount with
  | none => .error .amountInvalid
  | some (.fin a) =>
    match quantizeD (mulD a rate) (-2) with
    | some r => .ok (.fin r)
    | none => .error .amountInvalid
  | some (.nan s diag) => .ok (.nan s diag)
  | some (.snan _ _) => .error .amountInvalid
  | some (.inf _) => .error .amountInvalid

/-- `IExchageRate.convert` over a table that is already in the cache (the
cache-hit path of `get_exchange_rate`): rate lookup first, then the
amount arithmetic. -/
def convert (currencies : Currencies) (base target amount : String) : Except ConvErr PyDec :=
  match getExchangeRate currencies base target with
  | .error e => .error e
  | .ok rate => amountStep rate amount

/-! ### Cache state machine (`CBR.__init__`, `_is_cache_valid`, and the
locked refresh section of `get_exchange_rate`) -/

/-- Mutable state of a `CBR` instance: `_currencies`, `_expriration_date`
(an instant, or `None`), and the fixed `_cache_lifetime` in seconds. -/
structure CBRState where
  currencies : Currencies
  expirationDate : Option Int
  cacheLifetime : Nat
deriving Repr

/-- `CBR._is_cache_valid` (lines 122-127): the expiry is set and `now` is
strictly before it. -/
def isCacheValid (st : CBRState) (now : Int) : Bool :=
  match st.expirationDate with
  | none => false
  | some e => decide (now < e)

/-- One call of `CBR.get_exchange_rate` with the network fetch abstracted
into its outcome: if the cache is valid the state is untouched, otherwise
the fetch outcome is consulted (`true` in the middle component records that
a fetch was attempted, the `Cache miss` branch).  A failing fetch raises
out of the assignment `self._currencies = await ...`, leaving both the
table and the expiry unchanged; a successful fetch replaces the table
wholesale and, when `_cache_lifetime` is truthy, sets the expiry to
`datetime.now() + self._cache_lifetime` (lines 45-51, 117-118). -/
def cbrStep (st : CBRState) (now fetchNow : Int) (fetch : Except ConvErr Currencies)
    (base target : String) : CBRState × Bool × Except ConvErr Decimal :=
  if isCacheValid st now then
    (st, false, getExchangeRate st.currencies base target)
  else
    match fetch with
    | .error e => (st, true, .error e)
    | .ok tbl =>
      ({ st with
          currencies := tbl,
          expirationDate :=
            if st.cacheLifetime ≠ 0 then some (fetchNow + (st.cacheLifetime : Int))
            else st.expirationDate },
        true, getExchangeRate tbl base target)

/-- Stateful `convert`: the rate comes from one `cbrStep` call, then the
amount arithmetic runs on it. -/
def convertSt (st : CBRState) (now fetchNow : Int) (fetch : Except ConvErr Currencies)
    (base target amount : String) : CBRState × Except ConvErr PyDec :=
  let sr := cbrStep st now fetchNow fetch base target
  (sr.1,
    match sr.2.2 with
    | .error e => .error e
    | .ok rate => amountStep rate amount)

/-! ## Upstream status-line check (`CBR._get_exchange_rate_from_server`,
lines 86-93) -/

/-- Outcome of the status-line check: pass, a raised
`ExchangeRateRequestError('CBR', code=status[1], description=status[2])`,
or an `IndexError` from indexing past the end of the token list. -/
inductive StatusOutcome where
  | ok
  | upstreamError (code description : String)
  | indexError
deriving DecidableEq, Repr

/-- `status = line.decode('iso-8859-1').split()` followed by
`if status[1] != '200': raise ExchangeRateRequestError('CBR', status[1],
status[2])`: `status[1]` is indexed unconditionally, `status[2]` only on a
non-`'200'` code. -/
def checkStatus (tokens : List String) : StatusOutcome :=
  match tokens with
  | _ :: c :: rest =>
    if c = ("200") then .ok
    else
      match rest with
      | d :: _ => .upstreamError c d
      | [] => .indexError
  | _ => .indexError

/-! ## Server layer (`server.py`) -/

/-- Groups of a character list split on runs of whitespace with empties
dropped: Python's argument-less `str.split()`, on the `str.isspace()`
class. -/
def splitWsGroups (cs : List Char) : List (List Char) :=
  (cs.foldr
    (fun c acc =>
      match acc with
      | g :: gs => if pyIsSpace c then [] :: g :: gs else (c :: g) :: gs
      | [] => [[c]])
    ([] :: [])).filter (fun g => g ≠ [])

/-- `str.split()` on a string (whitespace-separated tokens). -/
def pySplit (s : String) : List String :=
  (splitWsGroups s.data).map (fun g => (⟨g⟩ : String))

/-- Split on a single separator character, keeping empty segments:
Python's `str.split(sep)` for a one-character separator.  The result is
never empty (`''.split('/') == ['']`). -/
def splitOnCharL (sep : Char) (cs : List Char) : List (List Char) :=
  cs.foldr
    (fun c acc =>
      match acc with
      | g :: gs => if c = sep then [] :: g :: gs else (c :: g) :: gs
      | [] => [[c]])
    ([] :: [])

/-- `str.split(sep)` on a string. -/
def splitOnCharS (sep : Char) (s : String) : List String :=
  (splitOnCharL sep s.data).map (fun g => (⟨g⟩ : String))

/-! ### `urllib.parse.urlparse` (Python 3.11 `urlsplit` + params split)

`Request.__init__` runs `urlparse(url)` on the request target, which can
raise `ValueError` (an invalid bracketed authority) before the version and
method checks of `_parse_request`.  The model below follows `urlsplit`:
lstrip the WHATWG C0-control-or-space class, drop `\t\r\n`, split a valid
scheme, split an authority introduced by `//` (validating any bracketed
host exactly as `_check_bracketed_host` does, via `ipaddress`), then split
fragment and query, and finally split `;params` from the last path segment
as `urlparse` does.  `_checknetloc`'s NFKC check is omitted: no character
of the Latin-1 range this server can decode normalizes into `/?#@:`. -/

/-- Characters allowed in a URL scheme (`scheme_chars`). -/
def isSchemeChar (c : Char) : Bool :=
  c.isAlpha || c.isDigit || c = '+' || c = '-' || c = '.'

/-- Scheme removal of `urlsplit`: at the first `':'` with a nonempty
prefix starting with an ASCII letter and made of scheme characters, keep
what follows and return the lowercased scheme; otherwise the scheme is
empty and the input is kept whole. -/
def schemeSplit (cs : List Char) : List Char × List Char :=
  match splitFirst (fun c => c = ':') cs with
  | (before, some after) =>
    (match before with
     | [] => ([], cs)
     | c0 :: _ =>
       if c0.isAlpha && before.all isSchemeChar then (before.map Char.toLower, after)
       else ([], cs))
  | (_, none) => ([], cs)

/-- The schemes for which `urlparse` separates `;params` from the path
(`uses_params`, with the empty scheme included). -/
def usesParams (scheme : List Char) : Bool :=
  [([] : List Char), ("ftp").data, ("hdl").data, ("prospero").data, ("http").data,
      ("imap").data, ("https").data, ("shttp").data, ("rtsp").data, ("rtsps").data,
      ("rtspu").data, ("sip").data, ("sips").data, ("mms").data, ("sftp").data,
      ("tel").data].contains scheme

/-- ASCII hexadecimal digit (`ipaddress._HEX_DIGITS`). -/
def isHexDigit (c : Char) : Bool :=
  c.isDigit || ('a' ≤ c && c ≤ 'f') || ('A' ≤ c && c ≤ 'F')

/-- `ipaddress._parse_octet` validity: nonempty, ASCII digits only, at
most 3 characters, no leading zero (except the octet `0` itself), value
at most 255. -/
def validOctet (p : List Char) : Bool :=
  !p.isEmpty && p.all Char.isDigit && p.length ≤ 3 &&
  (match p with | '0' :: rest => rest.isEmpty | _ => true) &&
  digitsToNat p ≤ 255

/-- `IPv4Address` string validity: exactly four `.`-separated octets. -/
def ipv4Valid (cs : List Char) : Bool :=
  (splitOnCharL '.' cs).length = 4 && (splitOnCharL '.' cs).all validOctet

/-- `ipaddress._parse_hextet` validity: nonempty, hex digits only, at
most four characters. -/
def hextetValid (p : List Char) : Bool :=
  !p.isEmpty && p.length ≤ 4 && p.all isHexDigit

/-- The `'::'` bookkeeping of `_BaseV6._ip_int_from_string` over the
`':'`-separated parts (after any IPv4 suffix has been replaced by two
hextets): at most 9 parts, at most one inner empty part; with a skip, a
leading or trailing empty must be adjacent to it and at least one group
must actually be skipped; without one, exactly 8 hextets. -/
def ipv6Hextets (parts : List (List Char)) : Bool :=
  let n := parts.length
  if 9 < n then false
  else
    match ((parts.enum).filter
        (fun pe => 0 < pe.1 && pe.1 < n - 1 && pe.2.isEmpty)).map (fun pe => pe.1) with
    | [] => n = 8 && parts.all hextetValid
    | [si] =>
      let headEmpty := (match parts with | p :: _ => p.isEmpty | [] => true)
      let lastEmpty := (match parts.reverse with | p :: _ => p.isEmpty | [] => true)
      let hi := if headEmpty then si - 1 else si
      let lo := if lastEmpty then n - si - 2 else n - si - 1
      (!headEmpty || hi = 0) && (!lastEmpty || lo = 0) && hi + lo ≤ 7 &&
      (parts.take hi ++ parts.drop (n - lo)).all hextetValid
    | _ => false

/-- `IPv6Address` validity of the address part (no scope id): split on
`':'`, require at least 3 parts, convert a dotted final part through
`IPv4Address` into two hextets, then apply the `'::'` bookkeeping. -/
def ipv6AddrValid (cs : List Char) : Bool :=
  let parts0 := splitOnCharL ':' cs
  if parts0.length < 3 then false
  else
    match parts0.reverse with
    | [] => false
    | lastP :: restRev =>
      if lastP.contains '.' then
        if ipv4Valid lastP then ipv6Hextets ((['0'] :: ['0'] :: restRev).reverse)
        else false
      else ipv6Hextets parts0

/-- `IPv6Address` string validity including an optional `%scope` (split at
the first `'%'`; the scope must be nonempty and contain no further `'%'`). -/
def ipv6Valid (cs : List Char) : Bool :=
  match splitFirst (fun c => c = '%') cs with
  | (addr, some zone) => !zone.isEmpty && !zone.contains '%' && ipv6AddrValid addr
  | (addr, none) => ipv6AddrValid addr

/-- `_check_bracketed_host`: a host starting with `'v'` must match the
IPvFuture pattern `v<hex>+.<anything nonempty>`; any other host must be a
valid IPv6 address (a valid IPv4 one raises, as does an invalid one). -/
def bracketedHostOk (host : List Char) : Bool :=
  match host with
  | 'v' :: rest =>
    let hex := rest.takeWhile isHexDigit
    (match rest.drop hex.length with
     | '.' :: tail => !hex.isEmpty && !tail.isEmpty && !tail.contains '\n'
     | _ => false)
  | _ => ipv6Valid host

/-- The `urlparse`-level `;params` split (`_splitparams`): when the path
contains `';'`, cut at the first `';'` at or after the last `'/'` (or at
the first `';'` when there is no `'/'`). -/
def paramsStrip (cs : List Char) : List Char :=
  if cs.contains ';' then
    if cs.contains '/' then
      let lastSeg := (cs.reverse.takeWhile (fun c => c ≠ '/')).reverse
      if lastSeg.contains ';' then
        cs.take (cs.length - lastSeg.length) ++ lastSeg.takeWhile (fun c => c ≠ ';')
      else cs
    else cs.takeWhile (fun c => c ≠ ';')
  else cs

/-- Fragment split, query split and (for a `uses_params` scheme) the
params split applied to what remains after scheme and authority removal. -/
def pathFinish (scheme cs : List Char) : String :=
  let p := (cs.takeWhile (fun c => c ≠ '#')).takeWhile (fun c => c ≠ '?')
  ⟨if usesParams scheme then paramsStrip p else p⟩

/-- `urlparse(url).path`; `none` models the `ValueError` raised by
`urlsplit` for a bracket-mismatched or invalidly bracketed authority. -/
def urlparsePath (url : String) : Option String :=
  let cs0 := (url.data.dropWhile (fun c => c.toNat ≤ 32)).filter
    (fun c => c ≠ '\t' && c ≠ '\r' && c ≠ '\n')
  let sc := schemeSplit cs0
  match sc.2 with
  | '/' :: '/' :: rest =>
    let netloc := rest.takeWhile (fun c => c ≠ '/' && c ≠ '?' && c ≠ '#')
    let rest2 := rest.drop netloc.length
    if netloc.contains '[' || netloc.contains ']' then
      if netloc.contains '[' && netloc.contains ']' then
        if bracketedHostOk
            ((((splitFirst (fun c => c = '[') netloc).2).getD []).takeWhile (fun c => c ≠ ']'))
        then some (pathFinish sc.1 rest2)
        else none
      else none
    else some (pathFinish sc.1 rest2)
  | _ => some (pathFinish sc.1 sc.2)

/-- The parsed `Request` object (method, `url.path`, version). -/
structure PyRequest where
  method : String
  path : String
  version : String
deriving DecidableEq, Repr

/-- `HTTPError(code, reason)` as raised by the parsing/dispatch layer (its
optional `message` is never supplied there). -/
structure HTTPError where
  code : Nat
  reason : String
deriving DecidableEq, Repr

/-- Outcome of `_parse_request`: a parsed request, a raised `HTTPError`,
or the `ValueError` escaping `urlparse` inside `Request.__init__`. -/
inductive ParseOutcome where
  | ok (req : PyRequest)
  | httpError (e : HTTPError)
  | valueError
deriving DecidableEq, Repr

/-- `APIServer._parse_request` (lines 98-116): split the request line on
whitespace; a token count other than 3 raises `HTTPError(400, ' Bad
Request')`; then `Request(*request_info)` runs `urlparse` on the target,
whose `ValueError` (if any) escapes before the later checks; a version
other than `HTTP/1.1` raises 505; the literal method `POST` raises
`HTTPError(501, 'Not Implemented')`; everything else is returned parsed. -/
def parseRequest (line : String) : ParseOutcome :=
  match pySplit line with
  | [m, u, v] =>
    match urlparsePath u with
    | none => .valueError
    | some p =>
      if v ≠ ("HTTP/1.1") then .httpError ⟨505, ("HTTP Version Not Supported")⟩
      else if m = ("POST") then .httpError ⟨501, ("Not Implemented")⟩
      else .ok ⟨m, p, v⟩
  | _ => .httpError ⟨400, (" Bad Request")⟩

/-- Outcome of `APIServer._get_request_handler` (lines 133-151):
a resolved service with its three parameters, `HTTPError(404, 'Not
Found')`, or the `ValueError` thrown by the unpacking
`_, service, *params = request.url.path.split('/')` when the split yields
fewer than two segments. -/
inductive DispatchOutcome where
  | resolved (service : String) (params : List String)
  | notFound
  | valueError
deriving DecidableEq, Repr

/-- `APIServer._get_request_handler`: unpack the path split; resolve when
the service name is registered and exactly three parameters remain,
otherwise 404; fewer than two segments raise `ValueError`. -/
def getRequestHandler (services : List String) (path : String) : DispatchOutcome :=
  match splitOnCharS '/' path with
  | _ :: service :: params =>
    if services.contains service && params.length == 3 then .resolved service params
    else .notFound
  | _ => .valueError

/-! ## JSON bodies and `JSONResponse` (`server.py` lines 168-207) -/

mutual
/-- JSON values as `json.dumps` receives them from this server. -/
inductive Json where
  | null : Json
  | jbool : Bool → Json
  | jint : Int → Json
  | jstr : String → Json
  | jarr : JList → Json
  | jobj : JMembers → Json

/-- Elements of a JSON array. -/
inductive JList where
  | nil : JList
  | cons : Json → JList → JList

/-- Ordered members of a JSON object (Python dicts keep insertion order). -/
inductive JMembers where
  | nil : JMembers
  | cons : String → Json → JMembers → JMembers
end

/-- Python truthiness of a JSON value (`self.body or self.status`). -/
def pyTruthy : Json → Bool
  | .null => false
  | .jbool b => b
  | .jint n => n != 0
  | .jstr s => s ≠ ("")
  | .jarr .nil => false
  | .jarr (.cons _ _) => true
  | .jobj .nil => false
  | .jobj (.cons _ _ _) => true

/-- Lowercase hexadecimal digit for `k ≤ 15`: the decimal digits, then the
letters stored high-to-low and indexed from the top (`k` beyond 15 falls
back to `'f'`). -/
def hexDigitChar (k : Nat) : Char :=
  if k < 10 then digitChar k
  else (['f', 'e', 'd', 'c', 'b', 'a']).getD (15 - k) 'f'

/-- Four lowercase hex digits (`'\u%04x'`). -/
def hex4 (n : Nat) : List Char :=
  [hexDigitChar (n / 4096 % 16), hexDigitChar (n / 256 % 16),
   hexDigitChar (n / 16 % 16), hexDigitChar (n % 16)]

/-- Escaping of one character by `json.dumps` with the default
`ensure_ascii=True`: the two-character shorthands, printable ASCII
unchanged, and everything else (controls and all non-ASCII, with surrogate
pairs above U+FFFF) as `\uXXXX`. -/
def escChar (c : Char) : List Char :=
  if c.toNat = 34 then ['\\', '"']
  else if c.toNat = 92 then ['\\', '\\']
  else if c.toNat = 8 then ['\\', 'b']
  else if c.toNat = 9 then ['\\', 't']
  else if c.toNat = 10 then ['\\', 'n']
  else if c.toNat = 12 then ['\\', 'f']
  else if c.toNat = 13 then ['\\', 'r']
  else if 32 ≤ c.toNat ∧ c.toNat ≤ 126 then [c]
  else if c.toNat < 65536 then '\\' :: 'u' :: hex4 c.toNat
  else ('\\' :: 'u' :: hex4 (55296 + (c.toNat - 65536) / 1024)) ++
       ('\\' :: 'u' :: hex4 (56320 + (c.toNat - 65536) % 1024))

/-- Escape an entire character list. -/
def escapeList : List Char → List Char
  | [] => []
  | c :: r => escChar c ++ escapeList r

/-- Serialized JSON string literal: quotes around the escaped content. -/
def dumpsStr (s : String) : List Char :=
  '"' :: escapeList s.data ++ ['"']

/-- `repr` of a Python int. -/
def intChars (n : Int) : List Char :=
  if n < 0 then '-' :: natChars n.natAbs else natChars n.natAbs

mutual
/-- `json.dumps` with its defaults (`ensure_ascii=True`, separators
`', '` and `': '`, insertion order). -/
def dumpsJson : Json → List Char
  | .null => ('n' :: 'u' :: 'l' :: 'l' :: [])
  | .jbool true => ('t' :: 'r' :: 'u' :: 'e' :: [])
  | .jbool false => ('f' :: 'a' :: 'l' :: 's' :: 'e' :: [])
  | .jint n => intChars n
  | .jstr s => dumpsStr s
  | .jarr xs => '[' :: dumpsList xs ++ [']']
  | .jobj ms => '{' :: dumpsMembers ms ++ ['}']

/-- Array elements joined by `', '`. -/
def dumpsList : JList → List Char
  | .nil => []
  | .cons v .nil => dumpsJson v
  | .cons v (.cons w rest) => dumpsJson v ++ ',' :: ' ' :: dumpsList (.cons w rest)

/-- Object members `key: value` joined by `', '`. -/
def dumpsMembers : JMembers → List Char
  | .nil => []
  | .cons k v .nil => dumpsStr k ++ ':' :: ' ' :: dumpsJson v
  | .cons k v (.cons k2 v2 rest) =>
    dumpsStr k ++ ':' :: ' ' :: dumpsJson v ++ ',' :: ' ' :: dumpsMembers (.cons k2 v2 rest)
end

/-- `json.dumps` producing a Python string. -/
def jsonDumps (j : Json) : String := ⟨dumpsJson j⟩

/-- The wrapping of `JSONResponse.get_raw` (lines 191-198): code 200 wraps
the body as `{status: success, result: body}` (`None` serializing to
`null`); any other code wraps `{status: error, message: body or status}`
with Python's `or` falling back to the status text on a falsy body. -/
def wrapBody (code : Nat) (status : String) (body : Option Json) : Json :=
  if code = 200 then
    .jobj (.cons ("status") (.jstr ("success"))
      (.cons ("result") (match body with | some b => b | none => .null) .nil))
  else
    .jobj (.cons ("status") (.jstr ("error"))
      (.cons ("message")
        (match body with
         | some b => if pyTruthy b then b else .jstr status
         | none => .jstr status) .nil))

/-- Python `len` on a string: the number of code points. -/
def pyLen (s : String) : Nat := s.data.length

/-- Byte length of one character under `str.encode('utf-8')`. -/
def charUtf8Bytes (c : Char) : Nat :=
  if c.toNat < 128 then 1
  else if c.toNat < 2048 then 2
  else if c.toNat < 65536 then 3
  else 4

/-- Byte length of a character list under UTF-8. -/
def utf8LenL : List Char → Nat
  | [] => 0
  | c :: r => charUtf8Bytes c + utf8LenL r

/-- Byte length of `s.encode('utf-8')`. -/
def utf8Len (s : String) : Nat := utf8LenL s.data

/-- The number placed into the `Content-Length:` header by `get_raw`
(line 204): `len(content)` on the `json.dumps` string, i.e. a character
count. -/
def contentLengthValue (code : Nat) (status : String) (body : Option Json) : Nat :=
  pyLen (jsonDumps (wrapBody code status body))

/-- The byte length of the final body chunk `content.encode('utf-8')`
(line 207). -/
def bodyChunkBytes (code : Nat) (status : String) (body : Option Json) : Nat :=
  utf8Len (jsonDumps (wrapBody code status body))

/-! ## Request serving (`APIServer._serve_request`, `_process_request`) -/

/-- Errors crossing `_process_request`: an `HTTPError`, an exchange-rate /
foreign exception from the provider, or the dispatch `ValueError`. -/
inductive ServeErr where
  | http (code : Nat) (reason : String)
  | conv (e : ConvErr)
  | valueErr
deriving DecidableEq, Repr

/-- The registered service table `APIServer.SERVICES` (name keys). -/
def SERVICES : List String := [("cbr")]

/-- The response triple produced for a provider exception by
`_serve_request`: an `ExchangeRateException` yields `JSONResponse(500,
'Internal Server Error', ex.message)`; any other exception reaches the
blanket handler and yields `JSONResponse(500, 'Internal Server Error')`
with no body. -/
def convErrResponse (e : ConvErr) : Nat × String × Option Json :=
  match errMessage e with
  | some m => (500, ("Internal Server Error"), some (.jstr m))
  | none => (500, ("Internal Server Error"), none)

/-- The success payload dict of `_process_request` (lines 126-131). -/
def resultJson (base target amount result : String) : Json :=
  .jobj (.cons ("base_currency") (.jstr base)
    (.cons ("target_currency") (.jstr target)
      (.cons ("base_amount") (.jstr amount)
        (.cons ("result_amount") (.jstr result) .nil))))

/-- `APIServer._process_request`: dispatch, then `handler.convert`, then
the payload dict with `result_amount = str(result)`. -/
def processRequest (st : CBRState) (now fetchNow : Int) (fetch : Except ConvErr Currencies)
    (req : PyRequest) : CBRState × Except ServeErr Json :=
  match getRequestHandler SERVICES req.path with
  | .valueError => (st, .error .valueErr)
  | .notFound => (st, .error (.http 404 ("Not Found")))
  | .resolved _ params =>
    match params with
    | [base, target, amount] =>
      let sr := convertSt st now fetchNow fetch base target amount
      (sr.1,
        match sr.2 with
        | .error e => .error (.conv e)
        | .ok res => .ok (resultJson base target amount (pyStrP res)))
    | _ => (st, .error .valueErr)

/-- `APIServer._serve_request` up to the response triple handed to
`JSONResponse`: parse, process, and map each exception class to its
response exactly as the `try/except` ladder does (lines 64-79). -/
def serveLine (st : CBRState) (now fetchNow : Int) (fetch : Except ConvErr Currencies)
    (line : String) : CBRState × Nat × String × Option Json :=
  match parseRequest line with
  | .httpError he => (st, he.code, he.reason, none)
  | .valueError => (st, 500, ("Internal Server Error"), none)
  | .ok req =>
    let pr := processRequest st now fetchNow fetch req
    match pr.2 with
    | .ok result => (pr.1, 200, ("OK"), some result)
    | .error (.http c r) => (pr.1, c, r, none)
    | .error (.conv e) => (pr.1, convErrResponse e)
    | .error .valueErr => (pr.1, 500, ("Internal Server Error"), none)

/-! ## Shared concrete data for the end-to-end facts -/

/-- The stored rate `90.00` of the mocked upstream table. -/
def d90 : Decimal := ⟨false, 9000, -2⟩

/-- The mocked upstream table `{rub: {usd: 90.00}}`. -/
def tbl90 : Currencies := [(("rub"), [(("usd"), d90)])]

/-- All characters of a list are ASCII (code point below 128). -/
def allAsciiB (l : List Char) : Bool := l.all (fun c => c.toNat < 128)

/-! ## Lemmas: digit counts and context rounding -/

theorem nDigitsAux_congr (f : Nat) : ∀ g n : Nat, n ≤ f → n ≤ g →
    nDigitsAux f n = nDigitsAux g n := by
  induction f with
  | zero =>
    intro g n hf _
    have hn : n = 0 := Nat.le_zero.mp hf
    subst hn
    cases g <;> simp [nDigitsAux]
  | succ f ih =>
    intro g n hf hg
    cases g with
    | zero =>
      have hn : n = 0 := Nat.le_zero.mp hg
      subst hn
      simp [nDigitsAux]
    | succ g =>
      simp only [nDigitsAux]
      by_cases h : n < 10
      · simp [h]
      · have hpos : 0 < n := by omega
        have hlt : n / 10 < n := Nat.div_lt_self hpos (by norm_num)
        simp only [h, if_false]
        rw [ih g (n / 10) (by omega) (by omega)]

theorem nDigits_eq (n : Nat) : nDigits n = if n < 10 then 1 else nDigits (n / 10) + 1 := by
  unfold nDigits
  by_cases h : n < 10
  · cases n with
    | zero => simp [nDigitsAux, h]
    | succ m => simp [nDigitsAux, h]
  · obtain ⟨m, rfl⟩ : ∃ m, n = m + 1 := ⟨n - 1, by omega⟩
    simp only [nDigitsAux, h, if_false]
    congr 1
    have hlt : (m + 1) / 10 < m + 1 := Nat.div_lt_self (by omega) (by norm_num)
    exact nDigitsAux_congr m ((m + 1) / 10) ((m + 1) / 10) (by omega) (Nat.le_refl _)

theorem nDigits_pos (n : Nat) : 1 ≤ nDigits n := by
  rw [nDigits_eq]; split <;> omega

theorem lt_pow_nDigits (n : Nat) : n < 10 ^ nDigits n := by
  induction n using Nat.strong_induction_on with
  | _ n ih =>
    rw [nDigits_eq]
    by_cases h : n < 10
    · simp only [h, if_true]
      simpa using h
    · have hd := ih (n / 10) (Nat.div_lt_self (by omega) (by norm_num))
      simp only [h, if_false]
      rw [pow_succ]
      omega

theorem pow_nDigits_le (n : Nat) (hn : n ≠ 0) : 10 ^ (nDigits n - 1) ≤ n := by
  induction n using Nat.strong_induction_on with
  | _ n ih =>
    rw [nDigits_eq]
    by_cases h : n < 10
    · simpa [h] using by omega
    · have h10 : n / 10 ≠ 0 := by omega
      have hd := ih (n / 10) (Nat.div_lt_self (by omega) (by norm_num)) h10
      have hp : 1 ≤ nDigits (n / 10) := nDigits_pos _
      simp only [h, if_false]
      have he : nDigits (n / 10) + 1 - 1 = (nDigits (n / 10) - 1) + 1 := by omega
      rw [he, pow_succ]
      omega

theorem nDigits_le_iff (n p : Nat) (hp : 0 < p) : nDigits n ≤ p ↔ n < 10 ^ p := by
  constructor
  · intro h
    exact lt_of_lt_of_le (lt_pow_nDigits n) (Nat.pow_le_pow_right (by norm_num) h)
  · intro h
    by_contra hc
    push_neg at hc
    have hn : n ≠ 0 := by
      intro h0
      subst h0
      rw [nDigits_eq] at hc
      simp at hc
      omega
    have h1 := pow_nDigits_le n hn
    have h2 : 10 ^ p ≤ 10 ^ (nDigits n - 1) :=
      Nat.pow_le_pow_right (by norm_num) (by omega)
    omega

theorem rheNat_le (n m : Nat) : rheNat n m ≤ n / m + 1 := by
  unfold rheNat
  split_ifs <;> omega

theorem fixD_digits_le (a : Decimal) : nDigits (fixD a).mag ≤ prec := by
  unfold fixD
  by_cases h : nDigits a.mag ≤ prec
  · simp [h]
  · simp only [h, if_false]
    have hd : nDigits a.mag = prec + (nDigits a.mag - prec) := by omega
    have hmlt : a.mag < 10 ^ (prec + (nDigits a.mag - prec)) := by
      rw [← hd]; exact lt_pow_nDigits a.mag
    have hdiv : a.mag / 10 ^ (nDigits a.mag - prec) < 10 ^ prec := by
      rw [Nat.div_lt_iff_lt_mul (Nat.pos_pow_of_pos _ (by norm_num))]
      rw [← pow_add]
      exact hmlt
    have hq : rheNat a.mag (10 ^ (nDigits a.mag - prec)) ≤ 10 ^ prec :=
      le_trans (rheNat_le _ _) (by omega)
    by_cases h2 : prec < nDigits (rheNat a.mag (10 ^ (nDigits a.mag - prec)))
    · simp only [h2, if_true]
      have hnot : ¬ (rheNat a.mag (10 ^ (nDigits a.mag - prec)) < 10 ^ prec) := by
        intro hlt
        exact absurd ((nDigits_le_iff _ prec (by norm_num [prec])).mpr hlt) (by omega)
      have hqe : rheNat a.mag (10 ^ (nDigits a.mag - prec)) = 10 ^ prec := by omega
      rw [hqe]
      show nDigits (10 ^ prec / 10) ≤ prec
      decide
    · simp only [h2, if_false]
      omega

theorem fixD_of_le {a : Decimal} (h : nDigits a.mag ≤ prec) : fixD a = a := by
  unfold fixD
  simp [h]

theorem fixD_idem (a : Decimal) : fixD (fixD a) = fixD a :=
  fixD_of_le (fixD_digits_le a)

theorem fixD_divFin (a b : Decimal) : fixD (divFin a b) = divFin a b := by
  unfold divFin
  exact fixD_idem _

theorem mulD_oneDec (d : Decimal) : mulD oneDec d = fixD d := by
  cases d with
  | mk s m e => simp [mulD, mulRaw, oneDec]

/-! ## Lemmas: the serialized JSON body is pure ASCII -/

theorem allAsciiB_append (a b : List Char) :
    allAsciiB (a ++ b) = (allAsciiB a && allAsciiB b) := by
  simp [allAsciiB]

theorem digitChar_lt (k : Nat) : (digitChar k).toNat < 128 := by
  unfold digitChar
  by_cases h : k < 10
  · interval_cases k <;> decide
  · rw [show 9 - k = 0 from by omega]
    decide

theorem hexDigitChar_lt (k : Nat) : (hexDigitChar k).toNat < 128 := by
  unfold hexDigitChar
  by_cases h : k < 10
  · simp only [h, if_true]
    exact digitChar_lt k
  · simp only [h, if_false]
    by_cases h2 : k < 16
    · interval_cases k <;> decide
    · rw [show 15 - k = 0 from by omega]
      decide

theorem hex4_ascii (n : Nat) : allAsciiB (hex4 n) = true := by
  simp [hex4, allAsciiB, hexDigitChar_lt]

theorem escChar_ascii (c : Char) : allAsciiB (escChar c) = true := by
  unfold escChar
  split_ifs with h1 h2 h3 h4 h5 h6 h7 h8 h9
  · decide
  · decide
  · decide
  · decide
  · decide
  · decide
  · decide
  · simp [allAsciiB]
    omega
  · simp [allAsciiB, hexDigitChar_lt, hex4]
  · simp [allAsciiB, hexDigitChar_lt, hex4, List.all_append]

theorem escapeList_ascii (l : List Char) : allAsciiB (escapeList l) = true := by
  induction l with
  | nil => decide
  | cons c r ih =>
    simp only [escapeList, allAsciiB_append]
    rw [escChar_ascii, ih]
    rfl

theorem dumpsStr_ascii (s : String) : allAsciiB (dumpsStr s) = true := by
  have h := escapeList_ascii s.data
  simp [dumpsStr, allAsciiB, List.all_append] at h ⊢
  exact h

theorem natCharsAux_ascii (f : Nat) : ∀ n acc, allAsciiB acc = true →
    allAsciiB (natCharsAux f n acc) = true := by
  induction f with
  | zero =>
    intro n acc hacc
    simp [natCharsAux, allAsciiB, digitChar_lt]
    simpa [allAsciiB] using hacc
  | succ f ih =>
    intro n acc hacc
    simp only [natCharsAux]
    split
    · simp [allAsciiB, digitChar_lt]
      simpa [allAsciiB] using hacc
    · apply ih
      simp [allAsciiB, digitChar_lt]
      simpa [allAsciiB] using hacc

theorem natChars_ascii (n : Nat) : allAsciiB (natChars n) = true :=
  natCharsAux_ascii n n [] (by decide)

theorem intChars_ascii (n : Int) : allAsciiB (intChars n) = true := by
  unfold intChars
  split
  · simp [allAsciiB]
    have h := natChars_ascii n.natAbs
    simpa [allAsciiB] using h
  · exact natChars_ascii _

mutual
theorem dumpsJson_ascii : (j : Json) → allAsciiB (dumpsJson j) = true
  | .null => by simp only [dumpsJson]; decide
  | .jbool true => by simp only [dumpsJson]; decide
  | .jbool false => by simp only [dumpsJson]; decide
  | .jint n => by simp only [dumpsJson]; exact intChars_ascii n
  | .jstr s => by simp only [dumpsJson]; exact dumpsStr_ascii s
  | .jarr xs => by
    have h := dumpsList_ascii xs
    simp only [dumpsJson]
    simp [allAsciiB, List.all_append] at h ⊢
    exact h
  | .jobj ms => by
    have h := dumpsMembers_ascii ms
    simp only [dumpsJson]
    simp [allAsciiB, List.all_append] at h ⊢
    exact h

theorem dumpsList_ascii : (l : JList) → allAsciiB (dumpsList l) = true
  | .nil => by simp only [dumpsList]; decide
  | .cons v .nil => by simp only [dumpsList]; exact dumpsJson_ascii v
  | .cons v (.cons w rest) => by
    have h1 := dumpsJson_ascii v
    have h2 := dumpsList_ascii (.cons w rest)
    simp only [dumpsList]
    simp [allAsciiB, List.all_append] at h1 h2 ⊢
    exact ⟨h1, h2⟩

theorem dumpsMembers_ascii : (m : JMembers) → allAsciiB (dumpsMembers m) = true
  | .nil => by simp only [dumpsMembers]; decide
  | .cons k v .nil => by
    have h1 := dumpsStr_ascii k
    have h2 := dumpsJson_ascii v
    simp only [dumpsMembers]
    simp [allAsciiB, List.all_append] at h1 h2 ⊢
    exact ⟨h1, h2⟩
  | .cons k v (.cons k2 v2 rest) => by
    have h1 := dumpsStr_ascii k
    have h2 := dumpsJson_ascii v
    have h3 := dumpsMembers_ascii (.cons k2 v2 rest)
    simp only [dumpsMembers]
    simp [allAsciiB, List.all_append] at h1 h2 h3 ⊢
    exact ⟨h1, h2, h3⟩
end

theorem utf8LenL_of_ascii (l : List Char) (h : allAsciiB l = true) :
    utf8LenL l = l.length := by
  induction l with
  | nil => rfl
  | cons c r ih =>
    simp [allAsciiB] at h
    simp only [utf8LenL, List.length_cons]
    rw [ih (by simpa [allAsciiB] using h.2)]
    have : charUtf8Bytes c = 1 := by
      unfold charUtf8Bytes
      simp [h.1]
    omega

/-! ## Claim theorems -/

/-- C1 (amended): for a single-reference rate table whose entry for the
reference currency `R` maps a supported code `X ≠ R` to a stored (nonzero,
at most 28-digit) rate `v`, `get_exchange_rate(R, X)` returns the context
reciprocal `1 / v`, and `get_exchange_rate(X, R)` returns the raw stored
rate `v` directly — the two directions are the reverse of the original
claim; consequently `convert(R, X, "1")` rounds `1 / v` to 2 decimal places
and `convert(X, R, "1")` rounds `v` to 2 decimal places (via `quantize`,
whose success is the stated hypothesis). -/
theorem c1_rate_direction (R X : String) (inner : List (String × Decimal)) (v : Decimal)
    (hlook : List.lookup X inner = some v) (hXR : X ≠ R) (hmag : v.mag ≠ 0)
    (hdig : nDigits v.mag ≤ prec) :
    getExchangeRate [(R, inner)] R X = .ok (divFin oneDec v)
    ∧ getExchangeRate [(R, inner)] X R = .ok v
    ∧ (∀ r, quantizeD (divFin oneDec v) (-2) = some r →
        convert [(R, inner)] R X ("1") = .ok (.fin r))
    ∧ (∀ r, quantizeD v (-2) = some r →
        convert [(R, inner)] X R ("1") = .ok (.fin r)) := by
  have hXRb : (X == R) = false := beq_eq_false_iff_ne.mpr hXR
  have hA : getExchangeRate [(R, inner)] R X = .ok (divFin oneDec v) := by
    simp [getExchangeRate, List.lookup, hlook, divD, hmag]
  have hB : getExchangeRate [(R, inner)] X R = .ok v := by
    simp [getExchangeRate, List.lookup, hXRb, hlook]
  have hp : pyDecParse ("1") = some (.fin ⟨false, 1, 0⟩) := by decide
  refine ⟨hA, hB, ?_, ?_⟩
  · intro r hq
    have hm : mulD ⟨false, 1, 0⟩ (divFin oneDec v) = divFin oneDec v := by
      have h2 := mulD_oneDec (divFin oneDec v)
      rw [fixD_divFin] at h2
      exact h2
    simp only [convert, hA, amountStep, hp, hm, hq]
  · intro r hq
    have hm : mulD ⟨false, 1, 0⟩ v = v := by
      have h2 := mulD_oneDec v
      rw [fixD_of_le hdig] at h2
      exact h2
    simp only [convert, hB, amountStep, hp, hm, hq]

/-- C1 witness: the amended theorem applied to the table
`{rub: {usd: 90.00}}` at amount `"1"`. -/
theorem c1_rate_direction_witness :
    getExchangeRate tbl90 ("rub") ("usd") = .ok (divFin oneDec d90)
    ∧ getExchangeRate tbl90 ("usd") ("rub") = .ok d90
    ∧ convert tbl90 ("rub") ("usd") ("1") = .ok (.fin ⟨false, 1, -2⟩)
    ∧ convert tbl90 ("usd") ("rub") ("1") = .ok (.fin ⟨false, 9000, -2⟩) := by
  have h := c1_rate_direction ("rub") ("usd") [(("usd"), d90)] d90
    (by decide) (by decide) (by decide) (by decide)
  exact ⟨h.1, h.2.1, h.2.2.1 ⟨false, 1, -2⟩ (by decide), h.2.2.2 ⟨false, 9000, -2⟩ (by decide)⟩

/-- C1 counterexample: with the stored rate `90.00`,
`get_exchange_rate("rub", "usd")` returns the reciprocal
`0.0111...` — not the raw stored rate the claim promises — and
`get_exchange_rate("usd", "rub")` returns the raw `90.00` rather than a
reciprocal. -/
theorem c1_counterexample :
    getExchangeRate tbl90 ("rub") ("usd") = .ok (divFin oneDec d90)
    ∧ divFin oneDec d90 ≠ d90
    ∧ getExchangeRate tbl90 ("usd") ("rub") = .ok d90 :=
  ⟨rfl, by decide, rfl⟩

/-- C2: with the fresh cached table `{rub: {usd: 90.00}}`,
`GET /cbr/rub/usd/100 HTTP/1.1` yields status 200 and a body whose
`result_amount` is `"1.11"` (100/90 rounded half-even to 2 places), and
`GET /cbr/usd/rub/10 HTTP/1.1` yields 200 with `result_amount`
`"900.00"`; the cache state is untouched and the fetch outcome is never
consulted. -/
theorem c2_end_to_end :
    serveLine ⟨tbl90, some 100, 120⟩ 0 0 (Except.error ConvErr.transport)
        ("GET /cbr/rub/usd/100 HTTP/1.1")
      = (⟨tbl90, some 100, 120⟩, 200, ("OK"),
          some (resultJson ("rub") ("usd") ("100") ("1.11")))
    ∧ serveLine ⟨tbl90, some 100, 120⟩ 0 0 (Except.error ConvErr.transport)
        ("GET /cbr/usd/rub/10 HTTP/1.1")
      = (⟨tbl90, some 100, 120⟩, 200, ("OK"),
          some (resultJson ("usd") ("rub") ("10") ("900.00"))) :=
  ⟨rfl, rfl⟩

/-- C3 (amended): for a request line of exactly three tokens under
Python's whitespace split whose version token is the supported literal,
`urlparse` runs on the target first (inside `Request.__init__`): when it
succeeds with path `p`, the parser rejects exactly the literal method
`POST` with a 501 `Not Implemented` and accepts every other method string
— `GET`, but also write-style methods such as `PUT` or `DELETE` — as a
parsed request; when `urlparse` raises `ValueError` (an invalid bracketed
authority), that error escapes before the version and method checks and is
surfaced as a generic 500, so even `POST` does not yield 501 there. -/
theorem c3_method_check (line m u v : String)
    (hsplit : pySplit line = [m, u, v]) (hver : v = ("HTTP/1.1")) :
    (∀ p, urlparsePath u = some p →
      (m = ("POST") → parseRequest line = .httpError ⟨501, ("Not Implemented")⟩)
      ∧ (m ≠ ("POST") → parseRequest line = .ok ⟨m, p, v⟩))
    ∧ (urlparsePath u = none → parseRequest line = .valueError) := by
  constructor
  · intro p hp
    constructor <;> intro hm <;> simp [parseRequest, hsplit, hp, hver, hm]
  · intro hp
    simp [parseRequest, hsplit, hp]

/-- C3 witness: `POST` is rejected with 501, `GET` is accepted, and a
target with an unclosed bracketed authority hits the `ValueError` path,
via the amended theorem at concrete request lines. -/
theorem c3_method_check_witness :
    parseRequest ("POST /cbr/rub/usd/1 HTTP/1.1") = .httpError ⟨501, ("Not Implemented")⟩
    ∧ parseRequest ("GET /cbr/rub/usd/1 HTTP/1.1")
        = .ok ⟨("GET"), ("/cbr/rub/usd/1"), ("HTTP/1.1")⟩
    ∧ parseRequest ("POST //[ HTTP/1.1") = .valueError := by
  have h1 := c3_method_check ("POST /cbr/rub/usd/1 HTTP/1.1") ("POST") ("/cbr/rub/usd/1")
    ("HTTP/1.1") (by decide) rfl
  have h2 := c3_method_check ("GET /cbr/rub/usd/1 HTTP/1.1") ("GET") ("/cbr/rub/usd/1")
    ("HTTP/1.1") (by decide) rfl
  have h3 := c3_method_check ("POST //[ HTTP/1.1") ("POST") ("//[") ("HTTP/1.1")
    (by decide) rfl
  exact ⟨(h1.1 ("/cbr/rub/usd/1") (by decide)).1 rfl,
    (h2.1 ("/cbr/rub/usd/1") (by decide)).2 (by decide),
    h3.2 (by decide)⟩

/-- C3 counterexample: the write-style method `PUT` with a supported
version is NOT rejected with 501 — the parser accepts the request,
refuting the claim that every method other than `GET` fails with 501. -/
theorem c3_counterexample :
    parseRequest ("PUT /cbr/rub/usd/1 HTTP/1.1")
      = .ok ⟨("PUT"), ("/cbr/rub/usd/1"), ("HTTP/1.1")⟩ :=
  rfl

/-- C4: when the cache is stale and the upstream fetch fails with any
exception, the provider state (table and expiry) is returned completely
unchanged, a fetch was attempted, the call fails with that exception — the
serve layer maps every such exception to a 500 response — and any later
call that still sees a stale cache attempts a fetch again. -/
theorem c4_refresh_failure (st : CBRState) (now fetchNow now2 : Int) (e : ConvErr)
    (b t : String) (h : isCacheValid st now = false) :
    cbrStep st now fetchNow (.error e) b t = (st, true, .error e)
    ∧ (convErrResponse e).1 = 500
    ∧ (∀ f2 b2 t2, isCacheValid st now2 = false →
        (cbrStep st now2 fetchNow f2 b2 t2).2.1 = true) := by
  refine ⟨?_, ?_, ?_⟩
  · simp [cbrStep, h]
  · unfold convErrResponse
    cases h2 : errMessage e <;> simp [h2]
  · intro f2 b2 t2 h2
    cases f2 <;> simp [cbrStep, h2]

/-- C4 witness: a stale (empty) cache with a transport failure keeps its
state, surfaces the error, and retries on the next stale call. -/
theorem c4_refresh_failure_witness :
    cbrStep ⟨[], none, 120⟩ 0 0 (.error .transport) ("rub") ("usd")
      = (⟨[], none, 120⟩, true, .error .transport)
    ∧ (convErrResponse .transport).1 = 500
    ∧ (cbrStep ⟨[], none, 120⟩ 5 0 (Except.ok tbl90) ("a") ("b")).2.1 = true := by
  have h := c4_refresh_failure ⟨[], none, 120⟩ 0 0 5 ConvErr.transport ("rub") ("usd") rfl
  exact ⟨h.1, h.2.1, h.2.2 (Except.ok tbl90) ("a") ("b") rfl⟩

/-- C5 (amended): for a status line splitting into at least three tokens
whose second token is not `"200"`, the fetch fails with an
`ExchangeRateRequestError` whose code is the second token and whose
description is only the THIRD token (the first word of the reason phrase),
not the entire remainder of the line. -/
theorem c5_status_line (p c d : String) (rest : List String) (h : c ≠ ("200")) :
    checkStatus (p :: c :: d :: rest) = .upstreamError c d := by
  simp [checkStatus, h]

/-- C5 witness: the amended theorem applied to the tokens of
`HTTP/1.1 404 Not Found`. -/
theorem c5_status_line_witness :
    (("404") : String) ≠ ("200")
    ∧ checkStatus [("HTTP/1.1"), ("404"), ("Not"), ("Found")]
        = .upstreamError ("404") ("Not") :=
  ⟨by decide, c5_status_line ("HTTP/1.1") ("404") ("Not") [("Found")] (by decide)⟩

/-- C5 counterexample: on the line `HTTP/1.1 404 Not Found` the raised
error's description is `"Not"`, not the entire remainder `"Not Found"`
promised by the claim. -/
theorem c5_counterexample :
    checkStatus (pySplit ("HTTP/1.1 404 Not Found")) = .upstreamError ("404") ("Not")
    ∧ (("Not") : String) ≠ ("Not Found") :=
  ⟨rfl, by decide⟩

/-- C6: the cache-validity predicate holds iff the expiry is set and the
current time is strictly before it; a successful refresh leaves the expiry
untouched when the configured lifetime is zero (so, starting from the
constructor's unset expiry, it stays unset) and sets it to
`fetch-time + lifetime` when the lifetime is positive; an unset expiry
forces a fetch attempt on every call. -/
theorem c6_cache_validity (st : CBRState) (now fetchNow : Int) (tbl : Currencies)
    (b t : String) :
    (isCacheValid st now = true ↔ ∃ e, st.expirationDate = some e ∧ now < e)
    ∧ (st.cacheLifetime = 0 →
        (cbrStep st now fetchNow (.ok tbl) b t).1.expirationDate = st.expirationDate)
    ∧ (st.cacheLifetime ≠ 0 → isCacheValid st now = false →
        (cbrStep st now fetchNow (.ok tbl) b t).1.expirationDate
          = some (fetchNow + (st.cacheLifetime : Int)))
    ∧ (st.expirationDate = none →
        isCacheValid st now = false
        ∧ (cbrStep st now fetchNow (.ok tbl) b t).2.1 = true) := by
  refine ⟨?_, ?_, ?_, ?_⟩
  · unfold isCacheValid
    cases hse : st.expirationDate with
    | none => simp
    | some e2 => simp
  · intro h0
    by_cases hv : isCacheValid st now
    · simp [cbrStep, hv]
    · simp [cbrStep, hv, h0]
  · intro hL hv
    simp [cbrStep, hv, hL]
  · intro hn
    have hv : isCacheValid st now = false := by simp [isCacheValid, hn]
    exact ⟨hv, by simp [cbrStep, hv]⟩

/-- C6 witness: with lifetime 0 and an unset expiry the cache is stale, a
successful refresh leaves the expiry unset and a fetch is attempted; with
lifetime 5 a successful refresh at time 7 sets the expiry to 12. -/
theorem c6_cache_validity_witness :
    isCacheValid ⟨[], none, 0⟩ 3 = false
    ∧ (cbrStep ⟨[], none, 0⟩ 3 7 (Except.ok tbl90) ("a") ("b")).1.expirationDate = none
    ∧ (cbrStep ⟨[], none, 0⟩ 3 7 (Except.ok tbl90) ("a") ("b")).2.1 = true
    ∧ (cbrStep ⟨[], none, 5⟩ 3 7 (Except.ok tbl90) ("a") ("b")).1.expirationDate = some 12 := by
  have h1 := c6_cache_validity ⟨[], none, 0⟩ 3 7 tbl90 ("a") ("b")
  have h2 := c6_cache_validity ⟨[], none, 5⟩ 3 7 tbl90 ("a") ("b")
  refine ⟨(h1.2.2.2 rfl).1, ?_, (h1.2.2.2 rfl).2, ?_⟩
  · have h3 := h1.2.1 rfl
    simpa using h3
  · have h3 := h2.2.2.1 (by decide) (by rfl)
    rw [h3]
    norm_num

/-- C7 (amended): when splitting the path on `/` yields at least two
segments, dispatch resolves exactly when the second segment is a
registered service name and exactly three segments follow, and fails with
404 otherwise; but a path whose split has fewer than two segments (no `/`
at all) raises the unpacking `ValueError` — surfaced as a generic 500 —
rather than a 404. -/
theorem c7_dispatch (services : List String) (path : String) :
    (∀ x svc params, splitOnCharS '/' path = x :: svc :: params →
      getRequestHandler services path =
        (if services.contains svc && params.length == 3 then .resolved svc params
         else .notFound))
    ∧ ((splitOnCharS '/' path).length ≤ 1 → getRequestHandler services path = .valueError) := by
  constructor
  · intro x svc params h
    unfold getRequestHandler
    rw [h]
  · intro hlen
    unfold getRequestHandler
    rcases hs : splitOnCharS '/' path with _ | ⟨a, _ | ⟨b, l2⟩⟩
    · rfl
    · rfl
    · rw [hs] at hlen
      simp at hlen

/-- C7 witness: a registered four-segment path resolves, and a path with
no slash hits the `ValueError` branch, via the amended theorem. -/
theorem c7_dispatch_witness :
    getRequestHandler [("cbr")] ("/cbr/rub/usd/100")
      = .resolved ("cbr") [("rub"), ("usd"), ("100")]
    ∧ getRequestHandler [("cbr")] ("xyz") = .valueError := by
  have h1 := (c7_dispatch [("cbr")] ("/cbr/rub/usd/100")).1 ("") ("cbr")
    [("rub"), ("usd"), ("100")] (by decide)
  have h2 := (c7_dispatch [("cbr")] ("xyz")).2 (by decide)
  refine ⟨?_, h2⟩
  rw [h1]
  decide

/-- C7 counterexample: the registered-service path string `cbr` with no
slash makes dispatch raise the unpacking `ValueError` — not the 404 the
claim promises for every non-resolving case. -/
theorem c7_counterexample :
    getRequestHandler SERVICES ("cbr") = .valueError
    ∧ DispatchOutcome.valueError ≠ DispatchOutcome.notFound :=
  ⟨rfl, by decide⟩

/-- C8: for every response — success or error, any body value, including
bodies with non-ASCII characters — the value written after
`Content-Length:` (Python's `len` of the `json.dumps` string) equals the
byte length of the UTF-8-encoded body chunk, because `json.dumps` with its
default `ensure_ascii=True` emits only ASCII characters. -/
theorem c8_content_length (code : Nat) (status : String) (body : Option Json) :
    contentLengthValue code status body = bodyChunkBytes code status body := by
  unfold contentLengthValue bodyChunkBytes pyLen utf8Len jsonDumps
  exact (utf8LenL_of_ascii _ (dumpsJson_ascii _)).symm

/-- C9 (amended): whenever the rate lookup for `base`/`target` succeeds
and the amount string is not a valid decimal literal, `convert` fails with
the generic conversion error whose message is
`Amount of money is not correct` — but when the rate lookup itself fails,
that error (e.g. currency-not-found) wins because `get_exchange_rate` runs
before the amount is parsed. -/
theorem c9_invalid_amount (currencies : Currencies) (b t amount : String) (rate : Decimal)
    (hrate : getExchangeRate currencies b t = .ok rate) (hparse : pyDecParse amount = none) :
    convert currencies b t amount = .error .amountInvalid
    ∧ errMessage .amountInvalid = some ("Amount of money is not correct") := by
  constructor
  · simp only [convert, hrate, amountStep, hparse]
  · rfl

/-- C9 witness: the amended theorem at the table `{rub: {usd: 90.00}}`
with the unparsable amount `"abc"`. -/
theorem c9_invalid_amount_witness :
    convert tbl90 ("rub") ("usd") ("abc") = .error .amountInvalid :=
  (c9_invalid_amount tbl90 ("rub") ("usd") ("abc") (divFin oneDec d90) rfl (by decide)).1

/-- C9 counterexample: with base and target both unsupported and the same
unparsable amount `"abc"`, `convert` fails with the currency-not-found
error, not the generic conversion error — refuting the claim's quantifier
over every base and target. -/
theorem c9_counterexample :
    pyDecParse ("abc") = none
    ∧ convert tbl90 ("xxx") ("yyy") ("abc") = .error (.currencyNotSupported ("xxx")) :=
  ⟨by decide, rfl⟩

/-- C10 (amended): the fetcher indexes the second status-line token
unconditionally and the third only on a non-`"200"` code: fewer than two
tokens (e.g. an empty line) raise `IndexError`; exactly two tokens with a
non-`"200"` second token raise `IndexError`; but exactly two tokens with
second token `"200"` (a missing reason phrase) succeed. -/
theorem c10_status_indexing (tokens : List String) :
    (tokens.length < 2 → checkStatus tokens = .indexError)
    ∧ (∀ p c, tokens = [p, c] → c ≠ ("200") → checkStatus tokens = .indexError)
    ∧ (∀ p, tokens = [p, ("200")] → checkStatus tokens = .ok) := by
  refine ⟨?_, ?_, ?_⟩
  · intro h
    rcases tokens with _ | ⟨a, _ | ⟨b, r⟩⟩
    · rfl
    · rfl
    · simp at h
      exact absurd h (by omega)
  · intro p c h hc
    subst h
    simp [checkStatus, hc]
  · intro p h
    subst h
    simp [checkStatus]

/-- C10 witness: the empty status line and `HTTP/1.1 404` raise
`IndexError`, and `HTTP/1.1 200` passes, via the amended theorem. -/
theorem c10_status_indexing_witness :
    checkStatus [] = .indexError
    ∧ checkStatus [("HTTP/1.1"), ("404")] = .indexError
    ∧ checkStatus [("HTTP/1.1"), ("200")] = .ok := by
  have h1 := c10_status_indexing []
  have h2 := c10_status_indexing [("HTTP/1.1"), ("404")]
  have h3 := c10_status_indexing [("HTTP/1.1"), ("200")]
  exact ⟨h1.1 (by decide), h2.2.1 ("HTTP/1.1") ("404") rfl (by decide),
    h3.2.2 ("HTTP/1.1") rfl⟩

/-- C10 counterexample: the two-token status line `HTTP/1.1 200` — fewer
than three tokens — does NOT raise the out-of-range indexing error the
claim promises; the check passes. -/
theorem c10_counterexample :
    pySplit ("HTTP/1.1 200") = [("HTTP/1.1"), ("200")]
    ∧ checkStatus (pySplit ("HTTP/1.1 200")) = .ok :=
  ⟨by decide, rfl⟩

end CurConv
